import Mathlib

/-!
Shallow embedding of the SuperPy wrapper (src/superpy/__init__.py) and the
AsyncController (src/superpy/async_controller.py).

The native engine (`superpy._core.Engine`) is external to the repository; where
a claim depends on its behaviour the engine is modelled from the spec, and each
such definition is marked `Modelled from the spec:` in its doc comment.  The
wrapper code itself (validation, frame counting, queue logic, callback logic,
thread lifecycle flags) is translated directly from the Python source.
-/

namespace SuperPy

/-- Python `dict[str, bool]` of button states, as an association list. -/
abbrev ButtonDict := List (String × Bool)

/-- The canonical SNES button names, `SuperPy.BUTTONS` in the source. -/
def BUTTONS : List String :=
  ["A", "B", "X", "Y", "L", "R", "Up", "Down", "Left", "Right", "Start", "Select"]

/-- The three shapes a Python `action` argument can take:
a dict of button states, a list of booleans, or `None`. -/
inductive PyAction where
  | dict (d : ButtonDict)
  | list (l : List Bool)
  | noInput
  deriving DecidableEq, Repr

/-- The dict comprehension in `step`/`tick`:
`{btn: pressed for btn, pressed in zip(self.BUTTONS, action)}`. -/
def zipToDict (l : List Bool) : ButtonDict := BUTTONS.zip l

/-- The input handling shared by `SuperPy.step` and `SuperPy.tick`: a list is
length-checked (raising `ValueError` when its length is not 12) and converted
to a dict; then `action or {}` turns `None` into the empty dict.  The result is
the dict passed to the engine. -/
def normalizeAction (a : PyAction) : Except String ButtonDict :=
  match a with
  | .dict d => .ok d
  | .list l =>
      if l.length = BUTTONS.length then .ok (zipToDict l)
      else .error "Action list must have 12 elements"
  | .noInput => .ok []

/-- Modelled from the spec: the external engine's Input Model reads one button
from the dict it receives, with absent keys meaning "not pressed". -/
def lookupButton (d : ButtonDict) (b : String) : Bool :=
  (List.lookup b d).getD false

/-- Modelled from the spec: the external engine's Input Model,
`normalize(action) -> InputVector`, producing the canonical ordered vector of
12 boolean press states from a button dict. -/
def normalize (d : ButtonDict) : List Bool := BUTTONS.map (lookupButton d)

/-- The proposition that a button dict `M` and an ordered 12-boolean list `S`
represent the same press states: for each canonical button, the dict's value
(absent meaning not pressed) agrees with the list entry at that button's
position in `BUTTONS` order. -/
def sameStates (M : ButtonDict) (S : List Bool) : Prop :=
  S.length = 12 ∧ ∀ i, i < 12 → lookupButton M (BUTTONS.getD i "") = S.getD i false

/-- The Python-visible state of a `SuperPy` instance.  The engine's machine
state is external; `engineFrames` is a ghost counter of how many frames the
instance has asked the engine to run (via `Engine.step` / `Engine.tick`), and
`frame_count` is the wrapper's own `self._frame_count`. -/
structure SuperPyState where
  engineFrames : Int
  frame_count : Int
  deriving DecidableEq, Repr

/-- Method `SuperPy.step`: validate/convert the action, call `Engine.step`, then
increment `self._frame_count` by one.  `Except.error` models the `ValueError`
raised before the engine is touched. -/
def step (s : SuperPyState) (action : PyAction) : Except String SuperPyState :=
  match normalizeAction action with
  | .error e => .error e
  | .ok _ => .ok { engineFrames := s.engineFrames + 1, frame_count := s.frame_count + 1 }

/-- The state of the instance after a `step` call, observing that a raised
`ValueError` leaves the object unchanged (the raise precedes all mutation). -/
def stepRun (s : SuperPyState) (action : PyAction) : SuperPyState :=
  match step s action with
  | .ok s' => s'
  | .error _ => s

/-- Method `SuperPy.tick`: validate/convert the action, call
`Engine.tick(count, render, action)`, add `count` to `self._frame_count` and
return `count`. -/
def tick (s : SuperPyState) (count : Int) (render : Bool) (action : PyAction) :
    Except String (SuperPyState × Int) :=
  match normalizeAction action with
  | .error e => .error e
  | .ok _ =>
      .ok ({ engineFrames := s.engineFrames + count, frame_count := s.frame_count + count },
           count)

/-- The state of the instance after a `tick` call, observing that a raised
`ValueError` leaves the object unchanged (the raise precedes all mutation). -/
def tickRun (s : SuperPyState) (count : Int) (render : Bool) (action : PyAction) :
    SuperPyState :=
  match tick s count render action with
  | .ok (s', _) => s'
  | .error _ => s

/-- Abstract Machine State of the external engine (opaque to the wrapper). -/
structure EngineSt where
  machine : Nat
  deriving DecidableEq, Repr

/-- Modelled from the spec: the external engine's
`load_state(bytes) -> bool` validates the blob (version tag, size) and on
success atomically replaces Machine State; on failure it leaves the existing
state untouched and returns false.  `valid` abstracts the engine's validation
of a blob and `decode` its deserialisation. -/
def engineLoadState (valid : List Nat → Bool) (decode : List Nat → Nat)
    (e : EngineSt) (blob : List Nat) : Bool × EngineSt :=
  if valid blob then (true, { machine := decode blob }) else (false, e)

/-- Method `SuperPy.load_state`: calls the engine's `load_state` and raises
`RuntimeError("Failed to load state")` when it returns false.  `Except.error`
models the raised exception; `.ok` carries the engine state after the call. -/
def load_state (valid : List Nat → Bool) (decode : List Nat → Nat)
    (e : EngineSt) (blob : List Nat) : Except String EngineSt :=
  match engineLoadState valid decode e blob with
  | (true, e') => .ok e'
  | (false, _) => .error "Failed to load state"

/-- Modelled from the spec: the external engine's `load_rom` parses and
installs a ROM image and returns success/failure as a boolean; it does not
throw for a malformed or missing ROM.  `romOk` abstracts the parse result for
a given path. -/
def engineLoadRom (romOk : String → Bool) (rom_path : String) : Bool := romOk rom_path

/-- Constructor `SuperPy.__init__`: constructs the engine, then calls
`Engine.load_rom(rom_path)` and raises `RuntimeError` when it returns false.
On success the wrapper starts with `frame_count = 0`. -/
def init (romOk : String → Bool) (rom_path : String) : Except String SuperPyState :=
  if engineLoadRom romOk rom_path then .ok { engineFrames := 0, frame_count := 0 }
  else .error ("Failed to load ROM: " ++ rom_path)

end SuperPy

namespace AsyncController

open SuperPy (ButtonDict)

/-- The action-queue portion of `AsyncController`'s state:
`self._action_queue` (a deque of `(buttons, remaining_frames)` pairs),
`self._current_action` and `self._action_frames_left`. -/
structure QueueState where
  action_queue : List (ButtonDict × Int)
  current_action : ButtonDict
  action_frames_left : Int
  deriving DecidableEq, Repr

/-- Method `AsyncController.queue_action(buttons, duration_frames)`: appends
`(buttons.copy(), duration_frames)` to the FIFO queue. -/
def queue_action (s : QueueState) (buttons : ButtonDict) (duration_frames : Int) :
    QueueState :=
  { s with action_queue := s.action_queue ++ [(buttons, duration_frames)] }

/-- Method `AsyncController.clear_actions()`: empties the queue and resets the held
action to no input. -/
def clear_actions (_s : QueueState) : QueueState :=
  { action_queue := [], current_action := [], action_frames_left := 0 }

/-- Method `AsyncController._get_current_action()`: if the current action has expired
(`frames_left <= 0`) pop the next queue entry (or fall back to no input), then
decrement the remaining-frame count if positive, and return (a copy of) the
current action. -/
def getCurrentAction (s : QueueState) : ButtonDict × QueueState :=
  let s1 :=
    if s.action_frames_left ≤ 0 then
      match s.action_queue with
      | (b, d) :: rest =>
          { action_queue := rest, current_action := b, action_frames_left := d }
      | [] => { s with current_action := [], action_frames_left := 0 }
    else s
  let s2 :=
    if 0 < s1.action_frames_left then
      { s1 with action_frames_left := s1.action_frames_left - 1 }
    else s1
  (s2.current_action, s2)

/-- The sequence of inputs the emulator loop applies over `n` iterations:
each iteration of `_run_loop` calls `_get_current_action()` once and steps the
engine with its result. -/
def runActions : QueueState → Nat → List ButtonDict
  | _, 0 => []
  | s, n + 1 => (getCurrentAction s).1 :: runActions (getCurrentAction s).2 n

/-- One registered frame callback as stored in `self._callbacks`:
`(callback, interval, counter)`.  The Python callback function itself is
external behaviour; `fails` records whether invoking it raises an exception
(which `_run_callbacks` catches and logs). -/
structure Callback where
  interval : Int
  counter : Int
  fails : Bool
  deriving DecidableEq, Repr

instance : Inhabited Callback := ⟨⟨0, 0, false⟩⟩

/-- The per-entry body of the `for` loop in `_run_callbacks`: increment the
counter; if it has reached the interval, invoke the callback (catching any
exception) and reset the counter to zero.  The second component records the
invocation event: `none` when the callback was not due, `some raised` when it
was invoked (`raised` tells whether it threw, which was caught and logged). -/
def stepCallback (cb : Callback) : Callback × Option Bool :=
  if cb.interval ≤ cb.counter + 1 then ({ cb with counter := 0 }, some cb.fails)
  else ({ cb with counter := cb.counter + 1 }, none)

/-- Method `AsyncController._run_callbacks()`: processes every entry of
`self._callbacks` in order, building the updated list. -/
def run_callbacks (l : List Callback) : List Callback :=
  l.map (fun cb => (stepCallback cb).1)

/-- The invocation events of one `_run_callbacks()` pass, in list order. -/
def run_callbacks_events (l : List Callback) : List (Option Bool) :=
  l.map (fun cb => (stepCallback cb).2)

/-- Method `AsyncController.add_frame_callback(callback, interval)`: appends
`(callback, interval, 0)` — a fresh counter starting at zero. -/
def add_frame_callback (l : List Callback) (interval : Int) (fails : Bool) :
    List Callback :=
  l ++ [{ interval := interval, counter := 0, fails := fails }]

/-- The callback list after `k` completed engine steps (each step runs
`_run_callbacks` once). -/
def iterCallbacks (l : List Callback) : Nat → List Callback
  | 0 => l
  | k + 1 => iterCallbacks (run_callbacks l) k

/-- How many times a single callback entry fires over `k` engine steps. -/
def firesCount (cb : Callback) : Nat → Nat
  | 0 => 0
  | k + 1 =>
      (if (stepCallback cb).2.isSome then 1 else 0) + firesCount (stepCallback cb).1 k

/-- How many times the observer at position `i` of the callback list fires
over `k` engine steps. -/
def firesAt (l : List Callback) (i : Nat) : Nat → Nat
  | 0 => 0
  | k + 1 =>
      (if ((run_callbacks_events l).getD i none).isSome then 1 else 0) +
        firesAt (run_callbacks l) i k

/-- The lifecycle flags of an `AsyncController`: `self._running`,
`self._stop_event` and whether `self._thread` is set. -/
structure CtrlState where
  running : Bool
  stop_event : Bool
  has_thread : Bool
  deriving DecidableEq, Repr

/-- Method `AsyncController.stop()`: returns immediately if not running; otherwise
sets the stop event, joins the thread with a 2-second timeout, clears
`_running` and drops the thread reference.  `terminated` is the outcome of the
bounded join — whether the background thread actually finished within the
timeout; the method returns `None` either way, so the resulting state is the
whole observable effect. -/
def stop (s : CtrlState) (terminated : Bool) : CtrlState :=
  if s.running = false then s
  else { running := false, stop_event := true, has_thread := false }

/-! Helper lemmas about the action queue. -/

theorem getCurrentAction_pos (s : QueueState) (h : 0 < s.action_frames_left) :
    getCurrentAction s =
      (s.current_action, { s with action_frames_left := s.action_frames_left - 1 }) := by
  simp [getCurrentAction, not_le.mpr h, h]

theorem getCurrentAction_nil (c : ButtonDict) (l : Int) (h : l ≤ 0) :
    getCurrentAction ⟨[], c, l⟩ = ([], ⟨[], [], 0⟩) := by
  simp [getCurrentAction, h]

theorem getCurrentAction_cons (b : ButtonDict) (d : Int) (rest : List (ButtonDict × Int))
    (c : ButtonDict) (l : Int) (h : l ≤ 0) :
    getCurrentAction ⟨(b, d) :: rest, c, l⟩ =
      (b, ⟨rest, b, if 0 < d then d - 1 else d⟩) := by
  simp only [getCurrentAction, h, if_pos]
  split <;> simp_all

theorem runActions_le0_congr (q : List (ButtonDict × Int)) (c₁ c₂ : ButtonDict)
    (l₁ l₂ : Int) (h₁ : l₁ ≤ 0) (h₂ : l₂ ≤ 0) (n : Nat) :
    runActions ⟨q, c₁, l₁⟩ n = runActions ⟨q, c₂, l₂⟩ n := by
  cases n with
  | zero => rfl
  | succ n =>
    cases q with
    | nil =>
        rw [runActions, runActions, getCurrentAction_nil _ _ h₁, getCurrentAction_nil _ _ h₂]
    | cons p rest =>
        obtain ⟨b, d⟩ := p
        rw [runActions, runActions, getCurrentAction_cons _ _ _ _ _ h₁,
          getCurrentAction_cons _ _ _ _ _ h₂]

theorem runActions_empty (c : ButtonDict) (l : Int) (h : l ≤ 0) (n : Nat) :
    runActions ⟨[], c, l⟩ n = List.replicate n [] := by
  induction n generalizing c l with
  | zero => rfl
  | succ n ih =>
      rw [runActions, getCurrentAction_nil _ _ h]
      simp [ih [] 0 le_rfl, List.replicate_succ]

theorem runActions_hold (q : List (ButtonDict × Int)) (c : ButtonDict) (j m : Nat) :
    runActions ⟨q, c, (j : Int)⟩ (j + m) = List.replicate j c ++ runActions ⟨q, c, 0⟩ m := by
  induction j with
  | zero => simp
  | succ j ih =>
      have hpos : (0 : Int) < ((j + 1 : Nat) : Int) := by exact_mod_cast Nat.succ_pos j
      rw [show j + 1 + m = (j + m) + 1 from by omega, runActions,
        getCurrentAction_pos _ hpos]
      have hcast : ((j + 1 : Nat) : Int) - 1 = (j : Int) := by push_cast; omega
      simp only [hcast, ih, List.replicate_succ, List.cons_append]

theorem runActions_consume (b : ButtonDict) (rest : List (ButtonDict × Int))
    (c : ButtonDict) (l : Int) (hl : l ≤ 0) (n : Nat) (hn : 1 ≤ n) (m : Nat) :
    runActions ⟨(b, (n : Int)) :: rest, c, l⟩ (n + m) =
      List.replicate n b ++ runActions ⟨rest, b, 0⟩ m := by
  obtain ⟨j, rfl⟩ : ∃ j, n = j + 1 := ⟨n - 1, by omega⟩
  have hpos : (0 : Int) < ((j + 1 : Nat) : Int) := by exact_mod_cast Nat.succ_pos j
  rw [show j + 1 + m = (j + m) + 1 from by omega, runActions,
    getCurrentAction_cons _ _ _ _ _ hl]
  have hcast : ((j + 1 : Nat) : Int) - 1 = (j : Int) := by push_cast; omega
  simp only [if_pos hpos, hcast, runActions_hold, List.replicate_succ, List.cons_append]

theorem runActions_clamp_mid (b : ButtonDict) (d : Int) (hd : d ≤ 0)
    (q₂ : List (ButtonDict × Int)) (n : Nat) :
    ∀ (q₁ : List (ButtonDict × Int)) (c : ButtonDict) (l : Int),
      runActions ⟨q₁ ++ (b, d) :: q₂, c, l⟩ n = runActions ⟨q₁ ++ (b, 1) :: q₂, c, l⟩ n := by
  induction n with
  | zero => intro _ _ _; rfl
  | succ n ih =>
      intro q₁ c l
      by_cases hl : 0 < l
      · rw [runActions, runActions, getCurrentAction_pos ⟨_, _, _⟩ hl,
          getCurrentAction_pos ⟨_, _, _⟩ hl]
        exact congrArg (c :: ·) (ih q₁ c (l - 1))
      · push_neg at hl
        cases q₁ with
        | nil =>
            simp only [List.nil_append]
            rw [runActions, runActions, getCurrentAction_cons _ _ _ _ _ hl,
              getCurrentAction_cons _ _ _ _ _ hl]
            simp only [if_neg (not_lt.mpr hd), if_pos Int.one_pos]
            exact congrArg (b :: ·)
              (runActions_le0_congr q₂ b b d (1 - 1) hd (by omega) n)
        | cons p q₁ =>
            obtain ⟨x, e⟩ := p
            simp only [List.cons_append]
            rw [runActions, runActions, getCurrentAction_cons _ _ _ _ _ hl,
              getCurrentAction_cons _ _ _ _ _ hl]
            exact congrArg (x :: ·) (ih q₁ x _)

/-! Helper lemmas about frame callbacks. -/

theorem stepCallback_nat (N c : Nat) (f : Bool) :
    stepCallback ⟨(N : Int), (c : Int), f⟩ =
      if N ≤ c + 1 then (⟨(N : Int), 0, f⟩, some f)
      else (⟨(N : Int), ((c + 1 : Nat) : Int), f⟩, none) := by
  by_cases h : N ≤ c + 1
  · have h' : (N : Int) ≤ (c : Int) + 1 := by exact_mod_cast h
    simp [stepCallback, h, h']
  · have h' : ¬((N : Int) ≤ (c : Int) + 1) := by exact_mod_cast h
    simp [stepCallback, h, h']

theorem firesCount_formula (N : Nat) (hN : 1 ≤ N) (f : Bool) :
    ∀ (k c : Nat), c < N → firesCount ⟨(N : Int), (c : Int), f⟩ k = (k + c) / N := by
  intro k
  induction k with
  | zero => intro c hc; simpa [firesCount] using (Nat.div_eq_of_lt hc).symm
  | succ k ih =>
      intro c hc
      rw [firesCount, stepCallback_nat]
      by_cases h : N ≤ c + 1
      · have hc1 : c + 1 = N := by omega
        have h0 : (0 : Nat) < N := hN
        have hzero := ih 0 h0
        rw [Nat.cast_zero] at hzero
        rw [if_pos h]
        simp only [Option.isSome_some, if_true]
        rw [hzero, Nat.add_zero, show k + 1 + c = k + N from by omega,
          Nat.add_div_right _ h0]
        exact Nat.add_comm 1 _
      · have hc1 : c + 1 < N := by omega
        rw [if_neg h]
        simp only [Option.isSome_none, Bool.false_eq_true, if_false]
        rw [ih (c + 1) hc1, Nat.zero_add]
        congr 1
        omega

theorem run_callbacks_getD (l : List Callback) (i : Nat) (hi : i < l.length) :
    (run_callbacks l).getD i default = (stepCallback (l.getD i default)).1 := by
  have hi' : i < (run_callbacks l).length := by simpa [run_callbacks]
  rw [List.getD_eq_getElem _ _ hi', List.getD_eq_getElem _ _ hi]
  simp [run_callbacks]

theorem run_callbacks_events_getD (l : List Callback) (i : Nat) (hi : i < l.length) :
    (run_callbacks_events l).getD i none = (stepCallback (l.getD i default)).2 := by
  have hi' : i < (run_callbacks_events l).length := by simpa [run_callbacks_events]
  rw [List.getD_eq_getElem _ _ hi', List.getD_eq_getElem _ _ hi]
  simp [run_callbacks_events]

theorem firesAt_eq_firesCount (k : Nat) :
    ∀ (l : List Callback) (i : Nat), i < l.length →
      firesAt l i k = firesCount (l.getD i default) k := by
  induction k with
  | zero => intro l i _; rfl
  | succ k ih =>
      intro l i hi
      have hlen : i < (run_callbacks l).length := by simpa [run_callbacks]
      rw [firesAt, firesCount, run_callbacks_events_getD l i hi, ih (run_callbacks l) i hlen,
        run_callbacks_getD l i hi]

end AsyncController

namespace SuperPy

/-! Helper lemmas about the input model. -/

theorem exists_len12 {α : Type} (S : List α) (h : S.length = 12) :
    ∃ a0 a1 a2 a3 a4 a5 a6 a7 a8 a9 a10 a11,
      S = [a0, a1, a2, a3, a4, a5, a6, a7, a8, a9, a10, a11] := by
  rcases S with _ | ⟨a0, S⟩; · simp at h
  rcases S with _ | ⟨a1, S⟩; · simp at h
  rcases S with _ | ⟨a2, S⟩; · simp at h
  rcases S with _ | ⟨a3, S⟩; · simp at h
  rcases S with _ | ⟨a4, S⟩; · simp at h
  rcases S with _ | ⟨a5, S⟩; · simp at h
  rcases S with _ | ⟨a6, S⟩; · simp at h
  rcases S with _ | ⟨a7, S⟩; · simp at h
  rcases S with _ | ⟨a8, S⟩; · simp at h
  rcases S with _ | ⟨a9, S⟩; · simp at h
  rcases S with _ | ⟨a10, S⟩; · simp at h
  rcases S with _ | ⟨a11, S⟩; · simp at h
  rcases S with _ | ⟨a12, S⟩
  · exact ⟨a0, a1, a2, a3, a4, a5, a6, a7, a8, a9, a10, a11, rfl⟩
  · simp at h

end SuperPy

namespace Claims

open SuperPy AsyncController

/-- C2: starting from an empty held action, after `queue_action(a1, n1)` then
`queue_action(a2, n2)` with `n1, n2 ≥ 1`, the first `n1` calls to
`_get_current_action` return `a1`, the next `n2` calls return `a2`, and every
later call returns the empty no-input action — FIFO order, one decrement per
frame, an entry replaced only when its remaining count reaches zero. -/
theorem C2_fifo_action_queue (a1 a2 : ButtonDict) (n1 n2 : Nat)
    (h1 : 1 ≤ n1) (h2 : 1 ≤ n2) (k : Nat) :
    runActions (queue_action (queue_action ⟨[], [], 0⟩ a1 (n1 : Int)) a2 (n2 : Int))
        (n1 + n2 + k) =
      List.replicate n1 a1 ++ List.replicate n2 a2 ++ List.replicate k [] := by
  show runActions ⟨[(a1, (n1 : Int)), (a2, (n2 : Int))], [], 0⟩ (n1 + n2 + k) = _
  rw [show n1 + n2 + k = n1 + (n2 + k) from by omega,
    runActions_consume _ _ _ _ le_rfl _ h1,
    runActions_consume _ _ _ _ le_rfl _ h2,
    runActions_empty _ _ le_rfl, List.append_assoc]

/-- C2 witness at `a1 = Right-pressed`, `a2 = empty`, `n1 = 2`, `n2 = 1`,
`k = 2`. -/
theorem C2_fifo_action_queue_witness :
    runActions
        (queue_action (queue_action ⟨[], [], 0⟩ [("Right", true)] ((2 : Nat) : Int))
          [] ((1 : Nat) : Int)) (2 + 1 + 2) =
      List.replicate 2 [("Right", true)] ++ List.replicate 1 [] ++
        List.replicate 2 [] :=
  C2_fifo_action_queue [("Right", true)] [] 2 1 (by decide) (by decide) 2

/-- C10: an action queued with `duration_frames ≤ 0` is not skipped — the
whole observable input sequence is identical to queueing it with duration 1,
and once the previous action has expired (`frames_left ≤ 0`) a head entry
`(b, d)` with `d ≤ 0` is returned for exactly one frame before the loop moves
on to the rest of the queue. -/
theorem C10_nonpositive_duration (s : QueueState) (b : ButtonDict) (d : Int)
    (hd : d ≤ 0) :
    (∀ n, runActions (queue_action s b d) n = runActions (queue_action s b 1) n) ∧
    (∀ (c : ButtonDict) (l : Int) (rest : List (ButtonDict × Int)) (m : Nat), l ≤ 0 →
       runActions ⟨(b, d) :: rest, c, l⟩ (m + 1) = b :: runActions ⟨rest, b, 0⟩ m) := by
  constructor
  · intro n
    have h := runActions_clamp_mid b d hd [] n s.action_queue s.current_action
      s.action_frames_left
    simpa [queue_action] using h
  · intro c l rest m hl
    rw [runActions, getCurrentAction_cons _ _ _ _ _ hl]
    simp only [if_neg (not_lt.mpr hd)]
    exact congrArg (b :: ·) (runActions_le0_congr rest b b d 0 hd le_rfl m)

/-- C10 witness at `s` the initial state, `b = A-pressed`, `d = 0`, evaluated
on a run of 3 frames and on the one-frame head case. -/
theorem C10_nonpositive_duration_witness :
    (runActions (queue_action ⟨[], [], 0⟩ [("A", true)] 0) 3 =
       runActions (queue_action ⟨[], [], 0⟩ [("A", true)] 1) 3) ∧
    runActions ⟨[([("A", true)], 0)], [], 0⟩ (2 + 1) =
      [("A", true)] :: runActions ⟨[], [("A", true)], 0⟩ 2 :=
  ⟨(C10_nonpositive_duration ⟨[], [], 0⟩ [("A", true)] 0 (by decide)).1 3,
   (C10_nonpositive_duration ⟨[], [], 0⟩ [("A", true)] 0 (by decide)).2 [] 0 [] 2
     (by decide)⟩

/-- C1: with a loaded ROM and a valid action, every successful `step` call
increases `frame_count` by exactly 1, and every successful
`tick(count, render, action)` call increases `frame_count` by exactly `count`
and returns exactly `count` — never fewer, no early termination. -/
theorem C1_frame_counter (s : SuperPyState) (a : PyAction) (count : Int)
    (render : Bool) (s1 s2 : SuperPyState) (r : Int)
    (hstep : SuperPy.step s a = .ok s1)
    (htick : SuperPy.tick s count render a = .ok (s2, r)) :
    s1.frame_count = s.frame_count + 1 ∧
      s2.frame_count = s.frame_count + count ∧ r = count := by
  unfold SuperPy.step at hstep
  unfold SuperPy.tick at htick
  cases hna : normalizeAction a with
  | error e => rw [hna] at hstep; cases hstep
  | ok d =>
      rw [hna] at hstep htick
      cases hstep
      cases htick
      exact ⟨rfl, rfl, rfl⟩

/-- C1 witness at the empty action, `count = 3`, from a fresh instance. -/
theorem C1_frame_counter_witness :
    (⟨1, 1⟩ : SuperPyState).frame_count = (⟨0, 0⟩ : SuperPyState).frame_count + 1 ∧
      (⟨3, 3⟩ : SuperPyState).frame_count = (⟨0, 0⟩ : SuperPyState).frame_count + 3 ∧
      (3 : Int) = 3 :=
  C1_frame_counter ⟨0, 0⟩ .noInput 3 false ⟨1, 1⟩ ⟨3, 3⟩ 3 rfl rfl

/-- C4: a button mapping `M` over the canonical 12 button names and an
equivalent ordered 12-boolean list `S` are interchangeable: `step`/`tick`
accept both, pass `M` through unchanged and `S` converted to a dict, and the
engine's input normalization agrees on the two — `normalize(M) ==
normalize(S)`; a `None` action is passed as the empty dict, whose
normalization presses no buttons. -/
theorem C4_dict_list_equivalence (M : ButtonDict) (S : List Bool)
    (h : sameStates M S) :
    normalizeAction (.dict M) = .ok M ∧
      normalizeAction (.list S) = .ok (zipToDict S) ∧
      normalize M = normalize (zipToDict S) ∧
      normalizeAction .noInput = .ok ([] : ButtonDict) ∧
      normalize ([] : ButtonDict) = List.replicate 12 false := by
  obtain ⟨hlen, hpt⟩ := h
  refine ⟨rfl, ?_, ?_, rfl, by decide⟩
  · simp [normalizeAction, BUTTONS, hlen]
  · obtain ⟨s0, s1, s2, s3, s4, s5, s6, s7, s8, s9, s10, s11, rfl⟩ :=
      exists_len12 S hlen
    have e0 := hpt 0 (by norm_num)
    have e1 := hpt 1 (by norm_num)
    have e2 := hpt 2 (by norm_num)
    have e3 := hpt 3 (by norm_num)
    have e4 := hpt 4 (by norm_num)
    have e5 := hpt 5 (by norm_num)
    have e6 := hpt 6 (by norm_num)
    have e7 := hpt 7 (by norm_num)
    have e8 := hpt 8 (by norm_num)
    have e9 := hpt 9 (by norm_num)
    have e10 := hpt 10 (by norm_num)
    have e11 := hpt 11 (by norm_num)
    simp only [BUTTONS] at e0 e1 e2 e3 e4 e5 e6 e7 e8 e9 e10 e11
    norm_num [lookupButton] at e0 e1 e2 e3 e4 e5 e6 e7 e8 e9 e10 e11
    simp [SuperPy.normalize, zipToDict, BUTTONS, lookupButton, List.lookup,
      e0, e1, e2, e3, e4, e5, e6, e7, e8, e9, e10, e11]

/-- C4 witness at `M = only Right pressed` and the equivalent ordered list. -/
theorem C4_dict_list_equivalence_witness :
    normalizeAction (.dict [("Right", true)]) = .ok [("Right", true)] ∧
      normalizeAction
        (.list [false, false, false, false, false, false, false, false, false,
          true, false, false]) =
        .ok (zipToDict [false, false, false, false, false, false, false, false,
          false, true, false, false]) ∧
      normalize [("Right", true)] =
        normalize (zipToDict [false, false, false, false, false, false, false,
          false, false, true, false, false]) ∧
      normalizeAction .noInput = .ok ([] : ButtonDict) ∧
      normalize ([] : ButtonDict) = List.replicate 12 false :=
  C4_dict_list_equivalence [("Right", true)]
    [false, false, false, false, false, false, false, false, false, true, false,
      false] ⟨rfl, by decide⟩

/-- C5: a list action whose length differs from 12 makes both `step` and
`tick` raise a `ValueError`, and the failure is atomic — the engine is not
stepped and `frame_count` is unchanged (the post-call instance state equals
the pre-call state). -/
theorem C5_bad_list_length (s : SuperPyState) (l : List Bool) (count : Int)
    (render : Bool) (h : l.length ≠ 12) :
    SuperPy.step s (.list l) = .error "Action list must have 12 elements" ∧
      SuperPy.tick s count render (.list l) =
        .error "Action list must have 12 elements" ∧
      stepRun s (.list l) = s ∧ tickRun s count render (.list l) = s := by
  have hna : normalizeAction (.list l) = .error "Action list must have 12 elements" := by
    simp [normalizeAction, BUTTONS, h]
  refine ⟨?_, ?_, ?_, ?_⟩ <;>
    simp [SuperPy.step, SuperPy.tick, stepRun, tickRun, hna]

/-- C5 witness at the empty list (length 0). -/
theorem C5_bad_list_length_witness :
    SuperPy.step ⟨5, 5⟩ (.list []) = .error "Action list must have 12 elements" ∧
      SuperPy.tick ⟨5, 5⟩ 7 true (.list []) =
        .error "Action list must have 12 elements" ∧
      stepRun ⟨5, 5⟩ (.list []) = ⟨5, 5⟩ ∧
      tickRun ⟨5, 5⟩ 7 true (.list []) = ⟨5, 5⟩ :=
  C5_bad_list_length ⟨5, 5⟩ [] 7 true (by decide)

/-- C6 counterexample: the claim says a rejected blob makes `load_state`
return false and "never throw", but `SuperPy.load_state` raises
`RuntimeError("Failed to load state")` when the engine rejects the blob.
Concretely, with an engine that only accepts the blob `[1]`, loading `[0]`
raises. -/
theorem C6_counterexample :
    SuperPy.load_state (fun blob => blob = [1]) (fun _ => 0) ⟨7⟩ [0] =
      .error "Failed to load state" := by
  rfl

/-- C6 amended: for every blob the engine rejects, the engine-level
`load_state` leaves the prior Machine State untouched and returns false
(never partially applies the blob), and `SuperPy.load_state` converts that
false return into a raised `RuntimeError` — it signals failure by exception,
not by returning false. -/
theorem C6_corrupt_state_blob (valid : List Nat → Bool) (decode : List Nat → Nat)
    (e : EngineSt) (blob : List Nat) (hrej : valid blob = false) :
    engineLoadState valid decode e blob = (false, e) ∧
      SuperPy.load_state valid decode e blob = .error "Failed to load state" := by
  constructor
  · simp [engineLoadState, hrej]
  · simp [SuperPy.load_state, engineLoadState, hrej]

/-- C6 amended witness at a concrete rejecting engine and blob. -/
theorem C6_corrupt_state_blob_witness :
    engineLoadState (fun blob => blob = [1]) (fun _ => 0) ⟨7⟩ [0] = (false, ⟨7⟩) ∧
      SuperPy.load_state (fun blob => blob = [1]) (fun _ => 0) ⟨7⟩ [0] =
        .error "Failed to load state" :=
  C6_corrupt_state_blob (fun blob => blob = [1]) (fun _ => 0) ⟨7⟩ [0] (by decide)

/-- C7 counterexample: the claim says ROM loading does not throw and returns
false for a malformed or missing ROM, but `SuperPy.__init__` raises
`RuntimeError` when the engine's `load_rom` returns false.  Concretely, with
an engine that rejects every path, constructing on "bad.smc" raises. -/
theorem C7_counterexample :
    SuperPy.init (fun _ => false) "bad.smc" =
      .error "Failed to load ROM: bad.smc" := by
  rfl

/-- C7 amended: for every malformed or missing ROM, the engine-level
`load_rom` returns false without raising, and `SuperPy.__init__` converts
that false return into a raised `RuntimeError` — construction fails by
exception, not by returning false. -/
theorem C7_rom_load_failure (romOk : String → Bool) (rom_path : String)
    (hbad : romOk rom_path = false) :
    engineLoadRom romOk rom_path = false ∧
      SuperPy.init romOk rom_path = .error ("Failed to load ROM: " ++ rom_path) := by
  constructor
  · simpa [engineLoadRom] using hbad
  · simp [SuperPy.init, engineLoadRom, hbad]

/-- C7 amended witness at an engine that rejects every path. -/
theorem C7_rom_load_failure_witness :
    engineLoadRom (fun _ => false) "bad.smc" = false ∧
      SuperPy.init (fun _ => false) "bad.smc" =
        .error "Failed to load ROM: bad.smc" :=
  C7_rom_load_failure (fun _ => false) "bad.smc" rfl

/-- C3: an observer registered with `add_frame_callback` at interval `N ≥ 1`
has fired exactly `⌊k / N⌋` times after `k` completed engine steps, with its
own counter starting at zero at registration time, independently of whatever
other observers are already registered. -/
theorem C3_observer_interval (l₀ : List Callback) (N : Nat) (hN : 1 ≤ N)
    (f : Bool) (k : Nat) :
    firesAt (add_frame_callback l₀ (N : Int) f) l₀.length k = k / N := by
  have hlen : l₀.length < (add_frame_callback l₀ (N : Int) f).length := by
    simp [add_frame_callback]
  have hget : (add_frame_callback l₀ (N : Int) f).getD l₀.length default =
      ⟨(N : Int), 0, f⟩ := by
    rw [List.getD_eq_getElem _ _ hlen]
    simp [add_frame_callback]
  rw [firesAt_eq_firesCount k _ _ hlen, hget]
  have h := firesCount_formula N hN f k 0 hN
  rw [Nat.cast_zero] at h
  simpa using h

/-- C3 witness: interval 5, fresh registration, 20 completed steps — the
observer has fired exactly 4 times. -/
theorem C3_observer_interval_witness :
    firesAt (add_frame_callback [] ((5 : Nat) : Int) false)
      (List.length ([] : List Callback)) 20 = 4 := by
  have h := C3_observer_interval [] 5 (by decide) false 20
  simpa using h

/-- C8: in one `_run_callbacks` pass, every registered observer is processed
regardless of any observer raising: the updated list and the event list keep
one entry per observer, each observer's counter is updated by the same rule
whether or not its callback raises (a due observer's counter resets to 0 even
when it fails), and a due observer's invocation event is recorded as
`some raised` — the exception is caught, never propagated, and later
observers in the same pass are still processed. -/
theorem C8_callback_exception_isolation (l : List Callback) :
    (run_callbacks l).length = l.length ∧
      (run_callbacks_events l).length = l.length ∧
      (∀ i, i < l.length →
        (run_callbacks l).getD i default =
          { interval := (l.getD i default).interval,
            counter :=
              if (l.getD i default).interval ≤ (l.getD i default).counter + 1 then 0
              else (l.getD i default).counter + 1,
            fails := (l.getD i default).fails } ∧
        (run_callbacks_events l).getD i none =
          (if (l.getD i default).interval ≤ (l.getD i default).counter + 1 then
            some (l.getD i default).fails
          else none)) := by
  refine ⟨by simp [run_callbacks], by simp [run_callbacks_events], ?_⟩
  intro i hi
  rw [run_callbacks_getD l i hi, run_callbacks_events_getD l i hi]
  constructor <;> (unfold stepCallback; split <;> simp_all)

/-- C8 witness: two observers, the first due and raising — the pass still
processes both entries and records the caught exception. -/
theorem C8_callback_exception_isolation_witness :
    (run_callbacks [(⟨1, 0, true⟩ : Callback), ⟨2, 0, false⟩]).length =
        [(⟨1, 0, true⟩ : Callback), ⟨2, 0, false⟩].length ∧
      (run_callbacks_events [(⟨1, 0, true⟩ : Callback), ⟨2, 0, false⟩]).getD 0 none =
        some true :=
  ⟨(C8_callback_exception_isolation [⟨1, 0, true⟩, ⟨2, 0, false⟩]).1, by
    have h :=
      ((C8_callback_exception_isolation [⟨1, 0, true⟩, ⟨2, 0, false⟩]).2.2 0
        (by decide)).2
    simpa using h⟩

/-- C9 counterexample: the claim says `stop()` reports whether the background
context actually terminated, but `stop` returns `None` and its entire
observable effect is the same whether or not the 2-second join timed out: on a
running controller the result is identical for both join outcomes, so nothing
is reported. -/
theorem C9_counterexample :
    AsyncController.stop ⟨true, false, true⟩ true =
      AsyncController.stop ⟨true, false, true⟩ false := by
  decide

/-- C9 amended: `stop()` signals the loop to exit (sets the stop event),
waits a bounded join and then unconditionally marks the controller stopped,
and is idempotent — calling it on an already-stopped controller changes
nothing; however it does not report whether the context actually terminated:
its result is independent of the join outcome. -/
theorem C9_stop_lifecycle (s : CtrlState) (t t₁ t₂ : Bool) :
    (s.running = false → AsyncController.stop s t = s) ∧
      (s.running = true → AsyncController.stop s t = ⟨false, true, false⟩) ∧
      AsyncController.stop s t₁ = AsyncController.stop s t₂ ∧
      AsyncController.stop (AsyncController.stop s t₁) t₂ =
        AsyncController.stop s t₁ := by
  refine ⟨?_, ?_, ?_, ?_⟩ <;> cases hs : s.running <;>
    simp [AsyncController.stop, hs]

/-- C9 amended witness on a running controller with both join outcomes. -/
theorem C9_stop_lifecycle_witness :
    ((⟨true, false, true⟩ : CtrlState).running = false →
        AsyncController.stop ⟨true, false, true⟩ true = ⟨true, false, true⟩) ∧
      ((⟨true, false, true⟩ : CtrlState).running = true →
        AsyncController.stop ⟨true, false, true⟩ true = ⟨false, true, false⟩) ∧
      AsyncController.stop ⟨true, false, true⟩ true =
        AsyncController.stop ⟨true, false, true⟩ false ∧
      AsyncController.stop (AsyncController.stop ⟨true, false, true⟩ true) false =
        AsyncController.stop ⟨true, false, true⟩ true :=
  C9_stop_lifecycle ⟨true, false, true⟩ true true false

end Claims
